import Mathlib

/-!
Verification development for the deterministic inventory-KPI engine of the
Analisis_FARMAGUIRRE repository (utils/kpi_fixed.py, utils/dates_numbers.py).

Conventions of the shallow embedding:
* Python floats are modelled as exact rationals (ℚ); dates as day ordinals (ℕ);
  the integer period length as ℤ.
* numpy.sqrt (used only inside the sample standard deviation and the safety-stock
  formula) is an opaque-to-us numeric primitive: the affected functions are
  parameterised over an arbitrary function sqrtFn : ℚ → ℚ, and every statement
  holds for all such functions.
* SQL result sets are modelled as multisets (the unordered database content);
  an ORDER BY on a key that totally orders the selected tuples is modelled by
  sorting the multiset, which is well defined exactly because the key is total.
* Python's builtin sorted (stable sort by a key tuple) is modelled by
  List.insertionSort with the corresponding lexicographic relation, which
  inserts an element in front of the later elements of equal key and is
  therefore stable in the same way.
-/

/-- Embedding of utils/dates_numbers.py safe_divide: returns default when the
denominator is zero (the pandas NaN branch cannot occur over ℚ). -/
def safe_divide (numerator denominator default : ℚ) : ℚ :=
  if denominator = 0 then default else numerator / denominator

/-- Embedding of utils/dates_numbers.py validate_date_range for non-null dates:
True exactly when start_date is at most end_date. -/
def validate_date_range (start_date end_date : ℕ) : Bool :=
  decide (start_date ≤ end_date)

/-- One row of the kpi_mov_diario_normalized table restricted to the columns the
KPI engine reads: fecha, qty_in, qty_out (nombre_clean is carried separately,
one product at a time). -/
@[ext]
structure Mov where
  fecha : ℕ
  qty_in : ℚ
  qty_out : ℚ
deriving DecidableEq

/-- Sort key used inside KpiCalculator.calculate_stock_series: the code sorts by
the tuple (fecha, nombre_clean), and within a single product nombre_clean is
constant, so the effective (stable) key is fecha alone. -/
def dateLe (a b : Mov) : Prop := a.fecha ≤ b.fecha

instance : DecidableRel dateLe := fun a b => by unfold dateLe; infer_instance

instance : IsTotal Mov dateLe := ⟨fun a b => Nat.le_total a.fecha b.fecha⟩

instance : IsTrans Mov dateLe := ⟨fun _ _ _ h1 h2 => Nat.le_trans h1 h2⟩

/-- Total order on movement rows by the full column tuple (fecha, qty_in,
qty_out); this is the ORDER BY of the movements query in calculate_kpis_fixed.
Rows that tie on this key are identical rows, so the order is antisymmetric. -/
def movLe (a b : Mov) : Prop :=
  a.fecha < b.fecha ∨ (a.fecha = b.fecha ∧
    (a.qty_in < b.qty_in ∨ (a.qty_in = b.qty_in ∧ a.qty_out ≤ b.qty_out)))

instance : DecidableRel movLe := fun a b => by unfold movLe; infer_instance

instance : IsTotal Mov movLe := by
  constructor
  intro a b
  unfold movLe
  rcases lt_trichotomy a.fecha b.fecha with h | h | h
  · exact Or.inl (Or.inl h)
  · rcases lt_trichotomy a.qty_in b.qty_in with h2 | h2 | h2
    · exact Or.inl (Or.inr ⟨h, Or.inl h2⟩)
    · rcases le_total a.qty_out b.qty_out with h3 | h3
      · exact Or.inl (Or.inr ⟨h, Or.inr ⟨h2, h3⟩⟩)
      · exact Or.inr (Or.inr ⟨h.symm, Or.inr ⟨h2.symm, h3⟩⟩)
    · exact Or.inr (Or.inr ⟨h.symm, Or.inl h2⟩)
  · exact Or.inr (Or.inl h)

instance : IsTrans Mov movLe := by
  constructor
  intro a b c hab hbc
  unfold movLe at hab hbc ⊢
  rcases hab with h1 | ⟨e1, h1⟩
  · rcases hbc with h2 | ⟨e2, _⟩
    · exact Or.inl (lt_trans h1 h2)
    · exact Or.inl (e2 ▸ h1)
  · rcases hbc with h2 | ⟨e2, h2⟩
    · exact Or.inl (e1 ▸ h2)
    · refine Or.inr ⟨e1.trans e2, ?_⟩
      rcases h1 with h1 | ⟨f1, h1⟩
      · rcases h2 with h2 | ⟨f2, _⟩
        · exact Or.inl (lt_trans h1 h2)
        · exact Or.inl (f2 ▸ h1)
      · rcases h2 with h2 | ⟨f2, h2⟩
        · exact Or.inl (f1 ▸ h2)
        · exact Or.inr ⟨f1.trans f2, le_trans h1 h2⟩

instance : IsAntisymm Mov movLe := by
  constructor
  intro a b hab hba
  unfold movLe at hab hba
  rcases hab with h1 | ⟨e1, h1⟩
  · rcases hba with h2 | ⟨e2, _⟩
    · exact absurd (lt_trans h1 h2) (lt_irrefl _)
    · exact absurd h1 (e2 ▸ lt_irrefl _)
  · rcases hba with h2 | ⟨e2, h2⟩
    · exact absurd h2 (e1 ▸ lt_irrefl _)
    · rcases h1 with h1 | ⟨f1, h1⟩
      · rcases h2 with h2 | ⟨f2, _⟩
        · exact absurd (lt_trans h1 h2) (lt_irrefl _)
        · exact absurd h1 (f2 ▸ lt_irrefl _)
      · rcases h2 with h2 | ⟨f2, h2⟩
        · exact absurd h2 (f1 ▸ lt_irrefl _)
        · exact Mov.ext e1 f1 (le_antisymm h1 h2)

/-- Lexicographic order on strings through their character lists; this models
Python string comparison, used as the deterministic tie-break key throughout
the fixed KPI module. -/
def strLe (a b : String) : Prop := a.data ≤ b.data

instance : DecidableRel strLe := fun a b => inferInstanceAs (Decidable (a.data ≤ b.data))

theorem strLe_total (a b : String) : strLe a b ∨ strLe b a := le_total a.data b.data

theorem strLe_trans {a b c : String} (h1 : strLe a b) (h2 : strLe b c) : strLe a c :=
  le_trans h1 h2

theorem strLe_antisymm {a b : String} (h1 : strLe a b) (h2 : strLe b a) : a = b := by
  have h : a.data = b.data := le_antisymm h1 h2
  cases a
  cases b
  exact congrArg String.mk h

theorem strLe_refl (a : String) : strLe a a := le_refl a.data

/-- Running stock walk of KpiCalculator.calculate_stock_series: the accumulator
current_stock is updated without clamping, and each appended StockPoint reports
max(0, current_stock). -/
def stockGo : List Mov → ℚ → List (ℕ × ℚ)
  | [], _ => []
  | m :: rest, current_stock =>
    (m.fecha, max 0 (current_stock + m.qty_in - m.qty_out)) ::
      stockGo rest (current_stock + m.qty_in - m.qty_out)

/-- Embedding of KpiCalculator.calculate_stock_series: sort the movements by
(fecha, nombre_clean) (within one product: by fecha, stably) and emit one
(fecha, stock_level) point per movement. -/
def calculate_stock_series (movements : List Mov) (initial_stock : ℚ) : List (ℕ × ℚ) :=
  stockGo (List.insertionSort dateLe movements) initial_stock

/-- One cost sample as consumed by calculate_basic_metrics (the orchestrator
always passes the singleton cantidad = 1, precio_unit = average cost). -/
structure CostS where
  cantidad : ℚ
  precio_unit : ℚ
deriving DecidableEq

/-- Sort key (cantidad, precio_unit) used on the cost samples inside
calculate_basic_metrics. -/
def costLe (a b : CostS) : Prop :=
  a.cantidad < b.cantidad ∨ (a.cantidad = b.cantidad ∧ a.precio_unit ≤ b.precio_unit)

instance : DecidableRel costLe := fun a b => by unfold costLe; infer_instance

/-- Result record of KpiCalculator.calculate_basic_metrics. -/
structure BasicMetrics where
  total_compras : ℚ
  total_ventas : ℚ
  stock_promedio : ℚ
  costo_promedio : ℚ
  stock_final_calculado : ℚ
  stock_final_raw : ℚ
deriving DecidableEq

/-- Embedding of KpiCalculator.calculate_basic_metrics: totals, the clamped
final stock (raw difference clamped only for display), the average stock as the
mean of the StockPoint levels (final/2 fallback when there are no movements),
and the weighted average cost over the sorted cost samples. -/
def calculate_basic_metrics (movements : List Mov) (costs : List CostS) : BasicMetrics :=
  let total_qty_in := (movements.map Mov.qty_in).sum
  let total_qty_out := (movements.map Mov.qty_out).sum
  let stock_final_raw := total_qty_in - total_qty_out
  let stock_final_display := max 0 stock_final_raw
  let avg_inventory :=
    if movements = [] then stock_final_display / 2
    else
      let stock_series := calculate_stock_series movements 0
      if stock_series = [] then stock_final_display / 2
      else
        let daily_stocks := stock_series.map Prod.snd
        if daily_stocks = [] then stock_final_display / 2
        else daily_stocks.sum / (daily_stocks.length : ℚ)
  let costs_sorted := List.insertionSort costLe costs
  let total_cost_value := (costs_sorted.map (fun c => c.cantidad * c.precio_unit)).sum
  let total_cost_qty := (costs_sorted.map CostS.cantidad).sum
  let avg_cost := safe_divide total_cost_value total_cost_qty 0
  { total_compras := total_qty_in
    total_ventas := total_qty_out
    stock_promedio := avg_inventory
    costo_promedio := avg_cost
    stock_final_calculado := stock_final_display
    stock_final_raw := stock_final_raw }

/-- Result record of KpiCalculator.calculate_financial_metrics. -/
structure FinancialMetrics where
  cogs : ℚ
  valor_inventario : ℚ
  rotacion : ℚ
  dio : ℚ
deriving DecidableEq

/-- Embedding of KpiCalculator.calculate_financial_metrics. The Python code
sets dio to float('inf') when daily_cogs is not positive and then replaces an
infinite dio by 999.0 on return; over ℚ this collapses to returning 999
directly in that branch, while a positive daily_cogs yields the exact (finite,
uncapped) quotient. -/
def calculate_financial_metrics (basic_metrics : BasicMetrics) (period_days : ℤ) :
    FinancialMetrics :=
  let avg_cost := basic_metrics.costo_promedio
  let total_qty_out := basic_metrics.total_ventas
  let inventario_promedio := basic_metrics.stock_promedio
  let stock_final := basic_metrics.stock_final_calculado
  let cogs := avg_cost * total_qty_out
  let valor_inventario := avg_cost * stock_final
  let valor_inventario_promedio := avg_cost * inventario_promedio
  let rotacion := safe_divide cogs valor_inventario_promedio 0
  let daily_cogs := safe_divide cogs ((period_days : ℚ)) 0
  let dio := if 0 < daily_cogs then safe_divide valor_inventario_promedio daily_cogs 0
    else (999 : ℚ)
  { cogs := cogs
    valor_inventario := valor_inventario
    rotacion := rotacion
    dio := dio }

/-- Result record of KpiCalculator.calculate_demand_metrics. -/
structure DemandMetrics where
  avg_daily_demand : ℚ
  std_demand_daily : ℚ
  cv_demand : ℚ
  cobertura_dias : ℚ
deriving DecidableEq

/-- Sample variance with Bessel correction (the radicand of
numpy.std(xs, ddof=1)). -/
def sampleVariance (xs : List ℚ) : ℚ :=
  let n : ℚ := (xs.length : ℚ)
  let mean := xs.sum / n
  ((xs.map (fun x => (x - mean) * (x - mean))).sum) / (n - 1)

/-- Embedding of KpiCalculator.calculate_demand_metrics. The coverage sentinel:
safe_divide with default float('inf') followed by min(-, 999) over ℚ collapses
to 999 in the zero-average-demand branch and min(quotient, 999) otherwise. -/
def calculate_demand_metrics (sqrtFn : ℚ → ℚ) (movements : List Mov) (period_days : ℤ) :
    DemandMetrics :=
  let daily_demands := movements.map Mov.qty_out
  let total_demand := daily_demands.sum
  let avg_daily_demand := safe_divide total_demand ((period_days : ℚ)) 0
  let std_demand_daily :=
    if 1 < daily_demands.length then sqrtFn (sampleVariance daily_demands) else 0
  let cv_demand := safe_divide std_demand_daily avg_daily_demand 0
  let total_in := (movements.map Mov.qty_in).sum
  let total_out := (movements.map Mov.qty_out).sum
  let final_stock := max 0 (total_in - total_out)
  let cobertura_dias :=
    if avg_daily_demand = 0 then (999 : ℚ) else min (final_stock / avg_daily_demand) 999
  { avg_daily_demand := avg_daily_demand
    std_demand_daily := std_demand_daily
    cv_demand := cv_demand
    cobertura_dias := cobertura_dias }

/-- Embedding of KpiCalculator.get_z_score: Python's min over the z-score table
keys in insertion order [0.90, 0.95, 0.99, 0.995], keeping the first key of
minimal absolute distance, followed by the table lookup. -/
def get_z_score (service_level : ℚ) : ℚ :=
  let closest_level := [(19 : ℚ)/20, 99/100, 199/200].foldl
    (fun best k => if abs (k - service_level) < abs (best - service_level) then k else best)
    ((9 : ℚ)/10)
  if closest_level = 9/10 then 1282/1000
  else if closest_level = 19/20 then 1645/1000
  else if closest_level = 99/100 then 2326/1000
  else 2576/1000

/-- Result record of KpiCalculator.calculate_reorder_metrics. -/
structure ReorderMetrics where
  stock_seguridad : ℚ
  rop : ℚ
deriving DecidableEq

/-- Embedding of KpiCalculator.calculate_reorder_metrics. -/
def calculate_reorder_metrics (sqrtFn : ℚ → ℚ) (service_level : ℚ) (lead_time_days : ℤ)
    (demand_metrics : DemandMetrics) : ReorderMetrics :=
  let z_score := get_z_score service_level
  let safety_stock := z_score * demand_metrics.std_demand_daily * sqrtFn ((lead_time_days : ℚ))
  let rop := demand_metrics.avg_daily_demand * ((lead_time_days : ℚ)) + safety_stock
  { stock_seguridad := safety_stock
    rop := rop }

/-- The pair of 0/1 operational flags produced by KpiCalculator.calculate_flags. -/
structure Flags where
  exceso : ℕ
  faltante : ℕ
deriving DecidableEq

/-- Embedding of KpiCalculator.calculate_flags (shortage has priority; excess is
checked only when there is no shortage). -/
def calculate_flags (cobertura_dias stock_final rop excess_threshold shortage_threshold : ℚ) :
    Flags :=
  let is_shortage : Bool :=
    decide (stock_final < rop) || decide (cobertura_dias < shortage_threshold)
  let is_excess : Bool := (! is_shortage) && decide (excess_threshold < cobertura_dias)
  { exceso := if is_excess then 1 else 0
    faltante := if is_shortage then 1 else 0 }

/-- ABC classification letters. -/
inductive ABCClass
  | A
  | B
  | C
deriving DecidableEq

/-- XYZ classification letters. -/
inductive XYZClass
  | X
  | Y
  | Z
deriving DecidableEq

/-- The fields of a per-product metrics dictionary that classify_abc reads. -/
structure AbcItem where
  nombre_clean : String
  total_ventas : ℚ
  costo_promedio : ℚ
deriving DecidableEq

/-- The sales value computed and attached by classify_abc:
total_ventas × costo_promedio. -/
def sales_value (p : AbcItem) : ℚ := p.total_ventas * p.costo_promedio

/-- The sort key of classify_abc: the Python key tuple
(-sales_value, nombre_clean), i.e. descending by sales value with the product
name as tie-break. -/
def abcLe (a b : AbcItem) : Prop :=
  sales_value b < sales_value a ∨
    (sales_value a = sales_value b ∧ strLe a.nombre_clean b.nombre_clean)

instance : DecidableRel abcLe := fun a b => by unfold abcLe; infer_instance

instance : IsTotal AbcItem abcLe := by
  constructor
  intro a b
  unfold abcLe
  rcases lt_trichotomy (sales_value a) (sales_value b) with h | h | h
  · exact Or.inr (Or.inl h)
  · rcases strLe_total a.nombre_clean b.nombre_clean with h2 | h2
    · exact Or.inl (Or.inr ⟨h, h2⟩)
    · exact Or.inr (Or.inr ⟨h.symm, h2⟩)
  · exact Or.inl (Or.inl h)

instance : IsTrans AbcItem abcLe := by
  constructor
  intro a b c hab hbc
  unfold abcLe at hab hbc ⊢
  rcases hab with h1 | ⟨e1, h1⟩
  · rcases hbc with h2 | ⟨e2, _⟩
    · exact Or.inl (lt_trans h2 h1)
    · exact Or.inl (e2 ▸ h1)
  · rcases hbc with h2 | ⟨e2, h2⟩
    · exact Or.inl (e1 ▸ h2)
    · exact Or.inr ⟨e1.trans e2, strLe_trans h1 h2⟩

/-- The cumulative-share thresholds of classify_abc: A up to 80 percent
inclusive, B up to 95 percent inclusive, C beyond. -/
def abcRule (cumulative_percentage : ℚ) : ABCClass :=
  if cumulative_percentage ≤ 8/10 then ABCClass.A
  else if cumulative_percentage ≤ 19/20 then ABCClass.B
  else ABCClass.C

/-- The classification loop of classify_abc over the sorted product list,
threading the running cumulative value. -/
def abcAssign (total_value : ℚ) : List AbcItem → ℚ → List (String × ABCClass)
  | [], _ => []
  | p :: rest, cumulative_value =>
    let cum2 := cumulative_value + sales_value p
    (p.nombre_clean, abcRule (safe_divide cum2 total_value 0)) :: abcAssign total_value rest cum2

/-- Embedding of KpiCalculator.classify_abc. The resulting association list
models the Python dict in its insertion order; for the name-distinct inputs the
orchestrator produces, List.lookup coincides with the dict lookup. -/
def classify_abc (products_data : List AbcItem) : List (String × ABCClass) :=
  if products_data = [] then []
  else
    let sorted_products := List.insertionSort abcLe products_data
    let total_value := (sorted_products.map sales_value).sum
    abcAssign total_value sorted_products 0

/-- Sort key of classify_xyz: the product name. -/
def xyzLe (a b : String × ℚ) : Prop := strLe a.1 b.1

instance : DecidableRel xyzLe := fun a b => by unfold xyzLe; infer_instance

/-- Embedding of KpiCalculator.classify_xyz: per-product threshold function of
the coefficient of variation, iterated over the name-sorted product list. -/
def classify_xyz (products_data : List (String × ℚ)) (x_threshold y_threshold : ℚ) :
    List (String × XYZClass) :=
  (List.insertionSort xyzLe products_data).map (fun q =>
    (q.1, if q.2 ≤ x_threshold then XYZClass.X
      else if q.2 ≤ y_threshold then XYZClass.Y
      else XYZClass.Z))

/-- Database content relevant to one product (one nombre_clean value): its rows
in kpi_mov_diario_normalized, its non-window-restricted cabys rows
(fecha, cabys), and its compras_normalized costo column values. Multisets model
the unordered stored tuples. -/
structure Entry where
  nombre_clean : String
  cabys_rows : Multiset (ℕ × String)
  movs : Multiset Mov
  costos : Multiset ℚ
deriving DecidableEq

/-- ORDER BY fecha, cabys on the cabys lookup query. -/
def cabLe (a b : ℕ × String) : Prop := a.1 < b.1 ∨ (a.1 = b.1 ∧ strLe a.2 b.2)

instance : DecidableRel cabLe := fun a b => by unfold cabLe; infer_instance

instance : IsTotal (ℕ × String) cabLe := by
  constructor
  intro a b
  unfold cabLe
  rcases lt_trichotomy a.1 b.1 with h | h | h
  · exact Or.inl (Or.inl h)
  · rcases strLe_total a.2 b.2 with h2 | h2
    · exact Or.inl (Or.inr ⟨h, h2⟩)
    · exact Or.inr (Or.inr ⟨h.symm, h2⟩)
  · exact Or.inr (Or.inl h)

instance : IsTrans (ℕ × String) cabLe := by
  constructor
  intro a b c hab hbc
  unfold cabLe at hab hbc ⊢
  rcases hab with h1 | ⟨e1, h1⟩
  · rcases hbc with h2 | ⟨e2, _⟩
    · exact Or.inl (lt_trans h1 h2)
    · exact Or.inl (e2 ▸ h1)
  · rcases hbc with h2 | ⟨e2, h2⟩
    · exact Or.inl (e1 ▸ h2)
    · exact Or.inr ⟨e1.trans e2, strLe_trans h1 h2⟩

instance : IsAntisymm (ℕ × String) cabLe := by
  constructor
  intro a b hab hba
  unfold cabLe at hab hba
  rcases hab with h1 | ⟨e1, h1⟩
  · rcases hba with h2 | ⟨e2, _⟩
    · exact absurd (lt_trans h1 h2) (lt_irrefl _)
    · exact absurd h1 (e2 ▸ lt_irrefl _)
  · rcases hba with h2 | ⟨e2, h2⟩
    · exact absurd h2 (e1 ▸ lt_irrefl _)
    · exact Prod.ext e1 (strLe_antisymm h1 h2)

/-- Deterministic list presentation of a movement multiset: the ORDER BY fecha,
qty_in, qty_out of the movements query totally orders the selected tuples, so
the resulting list is a function of the multiset alone. -/
def msortMov (s : Multiset Mov) : List Mov :=
  Quot.liftOn s (fun l => List.insertionSort movLe l) (fun l1 l2 h =>
    List.eq_of_perm_of_sorted
      ((List.perm_insertionSort movLe l1).trans (h.trans (List.perm_insertionSort movLe l2).symm))
      (List.sorted_insertionSort movLe l1)
      (List.sorted_insertionSort movLe l2))

/-- Deterministic list presentation of the cabys rows (ORDER BY fecha, cabys). -/
def msortCab (s : Multiset (ℕ × String)) : List (ℕ × String) :=
  Quot.liftOn s (fun l => List.insertionSort cabLe l) (fun l1 l2 h =>
    List.eq_of_perm_of_sorted
      ((List.perm_insertionSort cabLe l1).trans (h.trans (List.perm_insertionSort cabLe l2).symm))
      (List.sorted_insertionSort cabLe l1)
      (List.sorted_insertionSort cabLe l2))

/-- Embedding of the cabys lookup query of calculate_kpis_fixed: first row of
the non-empty cabys rows under ORDER BY fecha, cabys (LIMIT 1), empty string
when there is none. -/
def cabys_of (rows : Multiset (ℕ × String)) : String :=
  match msortCab (rows.filter (fun r => ¬ r.2 = "")) with
  | [] => ""
  | r :: _ => r.2

/-- Embedding of the cost query of calculate_kpis_fixed:
SELECT AVG(costo) WHERE costo > 0, with the Python `or 0` null fallback. AVG is
a function of the selected multiset, independent of enumeration order. -/
def avg_costo (costos : Multiset ℚ) : ℚ :=
  let pos := costos.filter (fun c => 0 < c)
  if pos.card = 0 then 0 else pos.sum / (pos.card : ℚ)

/-- The keyword parameters of calculate_kpis_fixed (with their defaults
service_level=0.95, lead_time_days=7, excess_threshold=45,
shortage_threshold=7 supplied by the caller). -/
structure Params where
  service_level : ℚ
  lead_time_days : ℤ
  excess_threshold : ℚ
  shortage_threshold : ℚ

/-- period_days = (end_date - start_date).days + 1. -/
def periodDays (start_date end_date : ℕ) : ℤ :=
  (end_date : ℤ) - (start_date : ℤ) + 1

/-- The date-window filter fecha BETWEEN start_date AND end_date. -/
def inWindow (start_date end_date : ℕ) (m : Mov) : Prop :=
  start_date ≤ m.fecha ∧ m.fecha ≤ end_date

instance (start_date end_date : ℕ) : DecidablePred (inWindow start_date end_date) :=
  fun m => by unfold inWindow; infer_instance

/-- The movement list the per-product loop works on: the product's rows inside
the window, presented in ORDER BY fecha, qty_in, qty_out. The subsequent
Python re-sort by (fecha, nombre_clean) is stable and nombre_clean is constant,
so it leaves this list unchanged. -/
def windowMovs (start_date end_date : ℕ) (e : Entry) : List Mov :=
  msortMov (e.movs.filter (inWindow start_date end_date))

/-- The product-discovery condition of the first query of calculate_kpis_fixed:
a non-empty nombre_clean with at least one window row having qty_in > 0 or
qty_out > 0. -/
def discoveredB (start_date end_date : ℕ) (e : Entry) : Bool :=
  (! (e.nombre_clean == "")) &&
    ((windowMovs start_date end_date e).any
      (fun m => decide (0 < m.qty_in) || decide (0 < m.qty_out)))

/-- The per-product in-memory record collected into all_products_data. -/
structure ProductData where
  cabys : String
  nombre_clean : String
  basic : BasicMetrics
  financial : FinancialMetrics
  demand : DemandMetrics
  reorder : ReorderMetrics
  flags : Flags
deriving DecidableEq

/-- The per-product body of the orchestrator loop: fetch window movements (skip
the product if there are none), build the singleton cost sample from the
average cost, and run basic, financial, demand, reorder and flag calculators in
sequence. -/
def productData (sqrtFn : ℚ → ℚ) (p : Params) (start_date end_date : ℕ) (e : Entry) :
    Option ProductData :=
  let movements := windowMovs start_date end_date e
  if movements = [] then none
  else
    let costs_dict := [CostS.mk 1 (avg_costo e.costos)]
    let basic := calculate_basic_metrics movements costs_dict
    let financial := calculate_financial_metrics basic (periodDays start_date end_date)
    let demand := calculate_demand_metrics sqrtFn movements (periodDays start_date end_date)
    let reorder := calculate_reorder_metrics sqrtFn p.service_level p.lead_time_days demand
    let flags := calculate_flags demand.cobertura_dias basic.stock_final_calculado reorder.rop
      p.excess_threshold p.shortage_threshold
    some { cabys := cabys_of e.cabys_rows
           nombre_clean := e.nombre_clean
           basic := basic
           financial := financial
           demand := demand
           reorder := reorder
           flags := flags }

/-- One persisted row of the producto_kpis table (the valid_fields subset kept
by calculate_kpis_fixed; precio_promedio is filtered out because the metrics
dictionary never contains it). -/
structure ProductoKpis where
  cabys : String
  nombre_clean : String
  total_compras : ℚ
  total_ventas : ℚ
  stock_promedio : ℚ
  stock_final : ℚ
  costo_promedio : ℚ
  rotacion : ℚ
  dio : ℚ
  rop : ℚ
  stock_seguridad : ℚ
  cobertura_dias : ℚ
  exceso : ℕ
  faltante : ℕ
  clasificacion_abc : ABCClass
  clasificacion_xyz : XYZClass
  fecha_inicio : ℕ
  fecha_fin : ℕ
deriving DecidableEq

/-- The classification-and-save phase of calculate_kpis_fixed: run classify_abc
and classify_xyz once over the collected products, then attach to every record
its classes (defaults C and Z for a missing dict key) and the window, mapping
stock_final_calculado onto the stock_final column. -/
def attachClassifications (start_date end_date : ℕ) (all_products_data : List ProductData) :
    List ProductoKpis :=
  let abc_classification := classify_abc (all_products_data.map (fun d =>
    { nombre_clean := d.nombre_clean
      total_ventas := d.basic.total_ventas
      costo_promedio := d.basic.costo_promedio }))
  let xyz_classification := classify_xyz (all_products_data.map (fun d =>
    (d.nombre_clean, d.demand.cv_demand))) (1/2) 1
  all_products_data.map (fun d =>
    { cabys := d.cabys
      nombre_clean := d.nombre_clean
      total_compras := d.basic.total_compras
      total_ventas := d.basic.total_ventas
      stock_promedio := d.basic.stock_promedio
      stock_final := d.basic.stock_final_calculado
      costo_promedio := d.basic.costo_promedio
      rotacion := d.financial.rotacion
      dio := d.financial.dio
      rop := d.reorder.rop
      stock_seguridad := d.reorder.stock_seguridad
      cobertura_dias := d.demand.cobertura_dias
      exceso := d.flags.exceso
      faltante := d.flags.faltante
      clasificacion_abc := (List.lookup d.nombre_clean abc_classification).getD ABCClass.C
      clasificacion_xyz := (List.lookup d.nombre_clean xyz_classification).getD XYZClass.Z
      fecha_inicio := start_date
      fecha_fin := end_date })

/-- ORDER BY nombre_clean on the product-discovery query. -/
def entryNameLe (a b : Entry) : Prop := strLe a.nombre_clean b.nombre_clean

instance : DecidableRel entryNameLe := fun a b => by unfold entryNameLe; infer_instance

instance : IsTotal Entry entryNameLe :=
  ⟨fun a b => strLe_total a.nombre_clean b.nombre_clean⟩

instance : IsTrans Entry entryNameLe :=
  ⟨fun _ _ _ h1 h2 => strLe_trans h1 h2⟩

/-- The discovered product list of calculate_kpis_fixed: entries sorted by
nombre_clean, restricted to those satisfying the discovery condition. -/
def kpiProductsOf (start_date end_date : ℕ) (entries : List Entry) : List Entry :=
  (List.insertionSort entryNameLe entries).filter (fun e => discoveredB start_date end_date e)

/-- The complete KPI batch of calculate_kpis_fixed as a pure function from the
database content (one Entry per product) and the parameters to the list of
persisted records in discovery order. -/
def calculate_kpis_fixed_pure (sqrtFn : ℚ → ℚ) (start_date end_date : ℕ) (p : Params)
    (entries : List Entry) : List ProductoKpis :=
  attachClassifications start_date end_date
    ((kpiProductsOf start_date end_date entries).filterMap
      (productData sqrtFn p start_date end_date))

/-- A result-store key: the (fecha_inicio, fecha_fin) window. -/
abbrev Window := ℕ × ℕ

/-- The producto_kpis result store: stored rows tagged with their window. -/
abbrev KpiStore := List (Window × ProductoKpis)

/-- Transactional session state as provided by db/database.py DatabaseSession
over SQLAlchemy: committed is the durable store content, pending the
uncommitted working state of the open transaction. DELETE and INSERT act on
pending; commit publishes pending; rollback discards it. -/
structure DbSession where
  committed : KpiStore
  pending : KpiStore
deriving DecidableEq

/-- Opening a session: the transaction starts from the committed store. -/
def DbSession.start (db : KpiStore) : DbSession :=
  { committed := db, pending := db }

/-- The DELETE FROM producto_kpis WHERE fecha_inicio = :start AND
fecha_fin = :end statement, staged in the open transaction. -/
def DbSession.deleteWindow (s : DbSession) (w : Window) : DbSession :=
  { s with pending := s.pending.filter (fun r => decide (¬ r.1 = w)) }

/-- session.add of one KPI record, staged in the open transaction. -/
def DbSession.add (s : DbSession) (w : Window) (k : ProductoKpis) : DbSession :=
  { s with pending := s.pending ++ [(w, k)] }

/-- session.commit: the staged state becomes durable. -/
def DbSession.commit (s : DbSession) : DbSession :=
  { committed := s.pending, pending := s.pending }

/-- session.rollback: the staged state is discarded. -/
def DbSession.rollback (s : DbSession) : DbSession :=
  { committed := s.committed, pending := s.committed }

/-- The per-product loop of calculate_kpis_fixed with an explicit failure
oracle: failAt names the products whose per-product computation raises (the
spec's ComputationError); none models the exception escaping the loop, which
the code does not catch. On success the collected records appear in loop
order. -/
def runLoop (failAt : String → Bool) (f : Entry → Option ProductData) :
    List Entry → Option (List ProductData)
  | [] => some []
  | e :: rest =>
    if failAt e.nombre_clean then none
    else
      match f e with
      | none =>
        runLoop failAt f rest
      | some d =>
        match runLoop failAt f rest with
        | none => none
        | some ds => some (d :: ds)

/-- Embedding of the body of calculate_kpis_fixed including its transaction
discipline: open a session, stage the window DELETE, run the per-product loop,
classify, stage the inserts and commit; on a loop exception, roll back and
re-raise (first component none). The second component is the store the caller
observes afterwards. -/
def calculate_kpis_fixed_run (sqrtFn : ℚ → ℚ) (failAt : String → Bool)
    (start_date end_date : ℕ) (p : Params) (entries : List Entry) (db : KpiStore) :
    Option Unit × KpiStore :=
  let s0 := DbSession.start db
  let s1 := s0.deleteWindow (start_date, end_date)
  match runLoop failAt (productData sqrtFn p start_date end_date)
      (kpiProductsOf start_date end_date entries) with
  | none => (none, (s1.rollback).committed)
  | some all_products_data =>
    let records := attachClassifications start_date end_date all_products_data
    let s2 := records.foldl (fun s k => s.add (start_date, end_date) k) s1
    (some (), (s2.commit).committed)

/-- C5: calculate_financial_metrics uses two distinct stock bases:
cogs = avg_cost × total_out; inventory value = avg_cost × FINAL stock;
rotation = cogs / (avg_cost × AVERAGE stock), and 0 when that denominator is
zero. -/
theorem calculate_financial_metrics_bases (bm : BasicMetrics) (period_days : ℤ) :
    (calculate_financial_metrics bm period_days).cogs = bm.costo_promedio * bm.total_ventas
    ∧ (calculate_financial_metrics bm period_days).valor_inventario =
        bm.costo_promedio * bm.stock_final_calculado
    ∧ (bm.costo_promedio * bm.stock_promedio ≠ 0 →
        (calculate_financial_metrics bm period_days).rotacion =
          (bm.costo_promedio * bm.total_ventas) / (bm.costo_promedio * bm.stock_promedio))
    ∧ (bm.costo_promedio * bm.stock_promedio = 0 →
        (calculate_financial_metrics bm period_days).rotacion = 0) := by
  refine ⟨rfl, rfl, ?_, ?_⟩
  · intro h
    simp only [calculate_financial_metrics, safe_divide]
    rw [if_neg h]
  · intro h
    simp only [calculate_financial_metrics, safe_divide]
    rw [if_pos h]

/-- Witness for calculate_financial_metrics_bases at concrete inputs, exercising
both the zero-denominator branch and the quotient branch of the rotation. -/
theorem calculate_financial_metrics_bases_witness :
    (calculate_financial_metrics (BasicMetrics.mk 0 7 0 10 3 3) 5).rotacion = 0
    ∧ (calculate_financial_metrics (BasicMetrics.mk 0 7 2 10 3 3) 5).rotacion = (10 * 7) / (10 * 2) := by
  constructor
  · exact (calculate_financial_metrics_bases (BasicMetrics.mk 0 7 0 10 3 3) 5).2.2.2 (by norm_num)
  · exact (calculate_financial_metrics_bases (BasicMetrics.mk 0 7 2 10 3 3) 5).2.2.1 (by norm_num)

/-- C6: calculate_flags sets the shortage flag exactly when final stock is below
the reorder point or coverage is below the shortage threshold, sets the excess
flag exactly when there is no shortage and coverage exceeds the excess
threshold, and consequently never sets both flags. -/
theorem calculate_flags_spec
    (cobertura_dias stock_final rop excess_threshold shortage_threshold : ℚ) :
    ((calculate_flags cobertura_dias stock_final rop excess_threshold
        shortage_threshold).faltante = 1 ↔
      (stock_final < rop ∨ cobertura_dias < shortage_threshold))
    ∧ ((calculate_flags cobertura_dias stock_final rop excess_threshold
        shortage_threshold).exceso = 1 ↔
      (¬ (stock_final < rop ∨ cobertura_dias < shortage_threshold) ∧
        excess_threshold < cobertura_dias))
    ∧ ¬ ((calculate_flags cobertura_dias stock_final rop excess_threshold
        shortage_threshold).exceso = 1 ∧
      (calculate_flags cobertura_dias stock_final rop excess_threshold
        shortage_threshold).faltante = 1) := by
  by_cases h1 : stock_final < rop <;> by_cases h2 : cobertura_dias < shortage_threshold <;>
    by_cases h3 : excess_threshold < cobertura_dias <;>
      simp [calculate_flags, h1, h2, h3]

/-- C3 (amended): with a positive period, calculate_financial_metrics returns
dio = (avg_cost × avg_stock) / (cogs / period_days) when cogs > 0, and returns
the sentinel 999 (not 0) when cogs = 0, because the code maps the
division-by-zero case to float('inf') and caps it to 999.0 on return. -/
theorem calculate_financial_metrics_dio (bm : BasicMetrics) (period_days : ℤ)
    (hpd : 0 < period_days) :
    (0 < bm.costo_promedio * bm.total_ventas →
      (calculate_financial_metrics bm period_days).dio =
        (bm.costo_promedio * bm.stock_promedio) /
          ((bm.costo_promedio * bm.total_ventas) / ((period_days : ℚ))))
    ∧ (bm.costo_promedio * bm.total_ventas = 0 →
      (calculate_financial_metrics bm period_days).dio = 999) := by
  have hq : ((period_days : ℚ)) ≠ 0 := by
    exact_mod_cast Int.ne_of_gt hpd
  have hqpos : (0 : ℚ) < ((period_days : ℚ)) := by exact_mod_cast hpd
  constructor
  · intro h
    simp only [calculate_financial_metrics, safe_divide]
    rw [if_neg hq]
    have hdaily : 0 < bm.costo_promedio * bm.total_ventas / ((period_days : ℚ)) :=
      div_pos h hqpos
    rw [if_pos hdaily, if_neg (ne_of_gt hdaily)]
  · intro h
    simp only [calculate_financial_metrics, safe_divide]
    rw [if_neg hq, h]
    norm_num

/-- Witness for calculate_financial_metrics_dio: a product with positive average
stock but zero sales gets dio = 999. -/
theorem calculate_financial_metrics_dio_witness :
    (calculate_financial_metrics (BasicMetrics.mk 0 0 1 1 0 0) 3).dio = 999 :=
  (calculate_financial_metrics_dio (BasicMetrics.mk 0 0 1 1 0 0) 3 (by decide)).2 (by norm_num)

/-- C3 counterexample: at avg_cost = 1, total_out = 0 (so cogs = 0), positive
average stock and period 3, the code returns dio = 999, not dio = 0 as the
claim states. -/
theorem calculate_financial_metrics_dio_counterexample :
    (calculate_financial_metrics (BasicMetrics.mk 0 0 1 1 0 0) 3).dio = 999
    ∧ (calculate_financial_metrics (BasicMetrics.mk 0 0 1 1 0 0) 3).dio ≠ 0 := by
  constructor <;> norm_num [calculate_financial_metrics, safe_divide]

/-- C4 (amended): coverage_days is always at most 999, and dio equals the 999
sentinel whenever the daily cogs quotient is not positive (in particular when
cogs = 0); but dio is NOT capped in general: a positive daily cogs yields the
uncapped quotient, which can exceed 999. -/
theorem sentinel_caps (sqrtFn : ℚ → ℚ) (movements : List Mov) (period_days : ℤ)
    (bm : BasicMetrics) :
    (calculate_demand_metrics sqrtFn movements period_days).cobertura_dias ≤ 999
    ∧ (safe_divide (bm.costo_promedio * bm.total_ventas) ((period_days : ℚ)) 0 ≤ 0 →
        (calculate_financial_metrics bm period_days).dio = 999) := by
  constructor
  · simp only [calculate_demand_metrics]
    split
    · exact le_refl _
    · exact min_le_right _ _
  · intro h
    simp only [calculate_financial_metrics]
    rw [if_neg (not_lt.mpr h)]

/-- Witness for sentinel_caps at concrete inputs. -/
theorem sentinel_caps_witness :
    (calculate_demand_metrics id [Mov.mk 1 2 3] 4).cobertura_dias ≤ 999
    ∧ (calculate_financial_metrics (BasicMetrics.mk 0 0 0 0 0 0) 0).dio = 999 := by
  constructor
  · exact (sentinel_caps id [Mov.mk 1 2 3] 4 (BasicMetrics.mk 0 0 0 0 0 0)).1
  · exact (sentinel_caps id [] 0 (BasicMetrics.mk 0 0 0 0 0 0)).2 (by norm_num [safe_divide])

/-- C4 counterexample: avg_cost = 1, total_out = 1, avg_stock = 10000 over a
3-day period gives daily cogs 1/3 and dio = 30000 > 999, so the claimed bound
dio ≤ 999.0 fails on the code. -/
theorem sentinel_caps_counterexample :
    ¬ ((calculate_financial_metrics (BasicMetrics.mk 0 1 10000 1 0 0) 3).dio ≤ 999) := by
  norm_num [calculate_financial_metrics, safe_divide]

theorem sum_map_sub_mov (l : List Mov) :
    (l.map (fun m => m.qty_in - m.qty_out)).sum =
      (l.map Mov.qty_in).sum - (l.map Mov.qty_out).sum := by
  induction l with
  | nil => simp
  | cons m rest ih =>
    simp only [List.map_cons, List.sum_cons, ih]
    ring

theorem stockGo_length (l : List Mov) (cur : ℚ) : (stockGo l cur).length = l.length := by
  induction l generalizing cur with
  | nil => rfl
  | cons m rest ih => simp [stockGo, ih]

theorem stockGo_getD (l : List Mov) (cur : ℚ) (i : ℕ) (hi : i < l.length) :
    ((stockGo l cur).map Prod.snd).getD i 0 =
      max 0 (cur + ((l.take (i+1)).map (fun m => m.qty_in - m.qty_out)).sum) := by
  induction l generalizing cur i with
  | nil => exact absurd hi (by simp)
  | cons m rest ih =>
    cases i with
    | zero =>
      simp only [stockGo, List.map_cons, List.getD_cons_zero, List.take_succ_cons,
        List.take_zero, List.sum_cons, List.sum_nil]
      congr 1
      simp only [List.map_nil, List.sum_nil]
      ring
    | succ i =>
      have hi' : i < rest.length := by simpa using hi
      simp only [stockGo, List.map_cons, List.getD_cons_succ, List.take_succ_cons,
        List.sum_cons]
      rw [ih (cur + m.qty_in - m.qty_out) i hi']
      congr 1
      ring

theorem stockGo_getLastD (l : List Mov) (cur : ℚ) (h : l ≠ []) (d : ℚ) :
    ((stockGo l cur).map Prod.snd).getLastD d =
      max 0 (cur + (l.map (fun m => m.qty_in - m.qty_out)).sum) := by
  induction l generalizing cur d with
  | nil => exact absurd rfl h
  | cons m rest ih =>
    cases rest with
    | nil =>
      simp only [stockGo, List.map_cons, List.map_nil, List.sum_cons, List.sum_nil]
      simp only [List.getLastD_cons, List.getLastD_nil]
      congr 1
      ring
    | cons m2 rest2 =>
      have key := ih (cur + m.qty_in - m.qty_out) (by simp) 0
      simp only [stockGo, List.map_cons, List.sum_cons, List.getLastD_cons] at key ⊢
      rw [key]
      congr 1
      ring

/-- C2 (amended): the running accumulator of calculate_stock_series is NOT
clamped; only each reported StockPoint level is, so the i-th level equals
max(0, running unclamped sum of qty_in - qty_out up to step i) rather than a
recurrence in the previous clamped level. The reported final stock equals the
last StockPoint level (0 when there are no movements), and the average stock is
the arithmetic mean of the StockPoint levels when movements exist. -/
theorem calculate_stock_series_spec (ms : List Mov) (costs : List CostS)
    (hsorted : List.Pairwise dateLe ms) :
    (∀ i, i < ms.length →
      ((calculate_stock_series ms 0).map Prod.snd).getD i 0 =
        max 0 (((ms.take (i+1)).map (fun m => m.qty_in - m.qty_out)).sum))
    ∧ (calculate_basic_metrics ms costs).stock_final_calculado =
        ((calculate_stock_series ms 0).map Prod.snd).getLastD 0
    ∧ (ms ≠ [] → (calculate_basic_metrics ms costs).stock_promedio =
        ((calculate_stock_series ms 0).map Prod.snd).sum /
          ((((calculate_stock_series ms 0).map Prod.snd).length : ℚ))) := by
  have hsorteq : List.insertionSort dateLe ms = ms :=
    List.Sorted.insertionSort_eq hsorted
  have hser : calculate_stock_series ms 0 = stockGo ms 0 := by
    simp only [calculate_stock_series, hsorteq]
  refine ⟨?_, ?_, ?_⟩
  · intro i hi
    rw [hser, stockGo_getD ms 0 i hi, zero_add]
  · rcases eq_or_ne ms [] with hms | hms
    · subst hms
      simp [calculate_basic_metrics, hser, stockGo]
    · have hproj : (calculate_basic_metrics ms costs).stock_final_calculado =
        max 0 ((ms.map Mov.qty_in).sum - (ms.map Mov.qty_out).sum) := rfl
      rw [hproj, hser, stockGo_getLastD ms 0 hms 0, zero_add, sum_map_sub_mov]
  · intro hms
    have hlen : (calculate_stock_series ms 0).length = ms.length := by
      rw [hser, stockGo_length]
    have hne : calculate_stock_series ms 0 ≠ [] := by
      intro hc
      rw [hc] at hlen
      exact hms (List.length_eq_zero.mp hlen.symm)
    have hmapne : (calculate_stock_series ms 0).map Prod.snd ≠ [] := by
      simpa [List.map_eq_nil_iff] using hne
    simp only [calculate_basic_metrics]
    rw [if_neg hms, if_neg hne, if_neg hmapne]

/-- C2 counterexample: for the date-sorted series out 5 then in 3 (initial
stock 0), the second StockPoint level is 0 (the unclamped running sum is -2),
whereas the claimed recurrence max(0, previous level + qty_in - qty_out) =
max(0, 0 + 3 - 0) would give 3. -/
theorem calculate_stock_series_claim_counterexample :
    ((calculate_stock_series [Mov.mk 1 0 5, Mov.mk 2 3 0] 0).map Prod.snd).getD 1 0 ≠
      max 0 (((calculate_stock_series [Mov.mk 1 0 5, Mov.mk 2 3 0] 0).map Prod.snd).getD 0 0
        + (Mov.mk 2 3 0).qty_in - (Mov.mk 2 3 0).qty_out) := by
  norm_num [calculate_stock_series, stockGo, List.insertionSort, List.orderedInsert, dateLe,
    max_def]

/-- Witness for calculate_stock_series_spec at the specification's example
scenario (in 100, out 30, out 40 on consecutive days). -/
theorem calculate_stock_series_spec_witness :
    (∀ i, i < ([Mov.mk 1 100 0, Mov.mk 2 0 30, Mov.mk 3 0 40] : List Mov).length →
      ((calculate_stock_series [Mov.mk 1 100 0, Mov.mk 2 0 30, Mov.mk 3 0 40] 0).map
          Prod.snd).getD i 0 =
        max 0 ((([Mov.mk 1 100 0, Mov.mk 2 0 30, Mov.mk 3 0 40].take (i+1)).map
          (fun m => m.qty_in - m.qty_out)).sum))
    ∧ (calculate_basic_metrics [Mov.mk 1 100 0, Mov.mk 2 0 30, Mov.mk 3 0 40]
        [CostS.mk 1 10]).stock_final_calculado =
        ((calculate_stock_series [Mov.mk 1 100 0, Mov.mk 2 0 30, Mov.mk 3 0 40] 0).map
          Prod.snd).getLastD 0
    ∧ (([Mov.mk 1 100 0, Mov.mk 2 0 30, Mov.mk 3 0 40] : List Mov) ≠ [] →
      (calculate_basic_metrics [Mov.mk 1 100 0, Mov.mk 2 0 30, Mov.mk 3 0 40]
        [CostS.mk 1 10]).stock_promedio =
        ((calculate_stock_series [Mov.mk 1 100 0, Mov.mk 2 0 30, Mov.mk 3 0 40] 0).map
          Prod.snd).sum /
          ((((calculate_stock_series [Mov.mk 1 100 0, Mov.mk 2 0 30, Mov.mk 3 0 40] 0).map
            Prod.snd).length : ℚ))) :=
  calculate_stock_series_spec [Mov.mk 1 100 0, Mov.mk 2 0 30, Mov.mk 3 0 40] [CostS.mk 1 10]
    (by decide)

theorem abcAssign_total_zero (l : List AbcItem) :
    ∀ (c : ℚ), ∀ e ∈ abcAssign 0 l c, e.2 = ABCClass.A := by
  induction l with
  | nil =>
    intro c e he
    simp [abcAssign] at he
  | cons p rest ih =>
    intro c e he
    simp only [abcAssign, List.mem_cons] at he
    rcases he with he | he
    · subst he
      norm_num [abcRule, safe_divide]
    · exact ih _ e he

/-- C10: when every product passed to classify_abc has sales value zero, the
total is zero, safe_divide yields its default 0 for each cumulative share, and
0 is at most 0.80, so every product is assigned class A. -/
theorem classify_abc_all_zero (ps : List AbcItem) (hz : ∀ p ∈ ps, sales_value p = 0) :
    ∀ e ∈ classify_abc ps, e.2 = ABCClass.A := by
  intro e he
  rcases eq_or_ne ps [] with h | h
  · subst h
    simp [classify_abc] at he
  · simp only [classify_abc, if_neg h] at he
    have htot : ((List.insertionSort abcLe ps).map sales_value).sum = 0 := by
      apply List.sum_eq_zero
      intro x hx
      simp only [List.mem_map] at hx
      obtain ⟨p, hp, rfl⟩ := hx
      exact hz p ((List.perm_insertionSort abcLe ps).mem_iff.mp hp)
    rw [htot] at he
    exact abcAssign_total_zero _ _ e he

/-- Witness for classify_abc_all_zero on two products whose sales values vanish
for different reasons (zero quantity and zero cost). -/
theorem classify_abc_all_zero_witness :
    (classify_abc [AbcItem.mk "A" 0 5, AbcItem.mk "B" 3 0]).all
      (fun e => e.2 == ABCClass.A) = true := by
  apply List.all_eq_true.mpr
  intro e he
  exact beq_iff_eq.mpr (classify_abc_all_zero [AbcItem.mk "A" 0 5, AbcItem.mk "B" 3 0]
    (by intro p hp; fin_cases hp <;> norm_num [sales_value]) e he)

theorem abcAssign_names (t : ℚ) (l : List AbcItem) :
    ∀ (c : ℚ), (abcAssign t l c).map Prod.fst = l.map AbcItem.nombre_clean := by
  induction l with
  | nil => intro c; rfl
  | cons p rest ih =>
    intro c
    simp only [abcAssign, List.map_cons, ih]

theorem abcAssign_lookup (t : ℚ) (p : AbcItem) (suf : List AbcItem) :
    ∀ (pre : List AbcItem) (c : ℚ),
      p.nombre_clean ∉ pre.map AbcItem.nombre_clean →
      List.lookup p.nombre_clean (abcAssign t (pre ++ p :: suf) c) =
        some (abcRule (safe_divide (c + ((pre ++ [p]).map sales_value).sum) t 0)) := by
  intro pre
  induction pre with
  | nil =>
    intro c _
    simp only [List.nil_append, abcAssign, List.lookup, beq_self_eq_true, List.map_cons,
      List.map_nil, List.sum_cons, List.sum_nil, List.cons_append]
    norm_num
  | cons q pre' ih =>
    intro c hp
    simp only [List.map_cons, List.mem_cons] at hp
    push_neg at hp
    obtain ⟨hne, hnotin⟩ := hp
    simp only [List.cons_append, abcAssign, List.lookup, List.map_cons, List.sum_cons]
    rw [beq_eq_false_iff_ne.mpr hne]
    have harg : c + sales_value q + ((pre' ++ [p]).map sales_value).sum =
        c + (sales_value q + ((pre' ++ [p]).map sales_value).sum) := by ring
    show List.lookup p.nombre_clean (abcAssign t (pre' ++ p :: suf) (c + sales_value q)) =
      some (abcRule (safe_divide
        (c + (sales_value q + ((pre' ++ [p]).map sales_value).sum)) t 0))
    rw [ih (c + sales_value q) hnotin, harg]

theorem abc_filter_prefix (pre suf : List AbcItem) (p : AbcItem)
    (hsorted : List.Sorted abcLe (pre ++ p :: suf))
    (hnot : p.nombre_clean ∉ suf.map AbcItem.nombre_clean) :
    (pre ++ p :: suf).filter (fun q => decide (abcLe q p)) = pre ++ [p] := by
  rw [List.filter_append, List.filter_cons]
  have hpre : pre.filter (fun q => decide (abcLe q p)) = pre := by
    rw [List.filter_eq_self]
    intro q hq
    simp only [decide_eq_true_eq]
    exact (List.pairwise_append.mp hsorted).2.2 q hq p (List.mem_cons_self _ _)
  have hself : decide (abcLe p p) = true := by
    simp only [decide_eq_true_eq]
    exact Or.inr ⟨rfl, strLe_refl _⟩
  have hsuf : suf.filter (fun q => decide (abcLe q p)) = [] := by
    rw [List.filter_eq_nil_iff]
    intro q hq
    simp only [decide_eq_true_eq]
    intro habs
    have hpq : abcLe p q :=
      (List.pairwise_cons.mp (List.pairwise_append.mp hsorted).2.1).1 q hq
    have hname : q.nombre_clean = p.nombre_clean := by
      rcases habs with h1 | ⟨e1, h1⟩
      · rcases hpq with h2 | ⟨e2, _⟩
        · exact absurd (lt_trans h1 h2) (lt_irrefl _)
        · exact absurd h1 (e2 ▸ lt_irrefl _)
      · rcases hpq with h2 | ⟨e2, h2⟩
        · exact absurd h2 (e1 ▸ lt_irrefl _)
        · exact strLe_antisymm h1 h2
    exact hnot (hname ▸ List.mem_map_of_mem AbcItem.nombre_clean hq)
  rw [hpre, hself, hsuf]
  simp

/-- C7: for a non-empty product list with pairwise-distinct names, classify_abc
assigns exactly one class to every product (the assigned keys are a
permutation of the input names, without duplicates), and the class of each
product p is determined by the cumulative-share rule: the sum of the sales
values of the products at or before p in the descending-value,
name-tie-broken order, divided by the total sales value, compared against the
inclusive 80 and 95 percent thresholds. -/
theorem classify_abc_partition (ps : List AbcItem) (hne : ps ≠ [])
    (hnd : (ps.map AbcItem.nombre_clean).Nodup) :
    ((classify_abc ps).map Prod.fst).Perm (ps.map AbcItem.nombre_clean)
    ∧ ((classify_abc ps).map Prod.fst).Nodup
    ∧ ∀ p ∈ ps,
        List.lookup p.nombre_clean (classify_abc ps) =
          some (abcRule (safe_divide
            (((ps.filter (fun q => decide (abcLe q p))).map sales_value).sum)
            ((ps.map sales_value).sum) 0)) := by
  have hperm : List.Perm (List.insertionSort abcLe ps) ps := List.perm_insertionSort abcLe ps
  have hnames : List.Perm ((List.insertionSort abcLe ps).map AbcItem.nombre_clean)
      (ps.map AbcItem.nombre_clean) := hperm.map _
  have hnd_s : ((List.insertionSort abcLe ps).map AbcItem.nombre_clean).Nodup :=
    hnames.nodup_iff.mpr hnd
  have hcls : classify_abc ps =
      abcAssign (((List.insertionSort abcLe ps).map sales_value).sum)
        (List.insertionSort abcLe ps) 0 := by
    simp only [classify_abc]
    rw [if_neg hne]
  refine ⟨?_, ?_, ?_⟩
  · rw [hcls, abcAssign_names]
    exact hnames
  · rw [hcls, abcAssign_names]
    exact hnd_s
  · intro p hp
    have hps : p ∈ List.insertionSort abcLe ps := hperm.mem_iff.mpr hp
    obtain ⟨pre, suf, hsplit⟩ := List.append_of_mem hps
    have hsorted_s : List.Sorted abcLe (pre ++ p :: suf) :=
      hsplit ▸ List.sorted_insertionSort abcLe ps
    have hpermps : List.Perm (pre ++ p :: suf) ps := hsplit ▸ hperm
    have hmapped : (List.insertionSort abcLe ps).map AbcItem.nombre_clean =
        pre.map AbcItem.nombre_clean ++
          p.nombre_clean :: suf.map AbcItem.nombre_clean := by
      rw [hsplit]
      simp
    have hnm : p.nombre_clean ∉
        pre.map AbcItem.nombre_clean ++ suf.map AbcItem.nombre_clean := by
      have hnds := hnd_s
      rw [hmapped] at hnds
      exact (List.nodup_cons.mp (List.nodup_middle.mp hnds)).1
    have hnm_pre : p.nombre_clean ∉ pre.map AbcItem.nombre_clean := fun h =>
      hnm (List.mem_append.mpr (Or.inl h))
    have hnm_suf : p.nombre_clean ∉ suf.map AbcItem.nombre_clean := fun h =>
      hnm (List.mem_append.mpr (Or.inr h))
    have hfil : (pre ++ p :: suf).filter (fun q => decide (abcLe q p)) = pre ++ [p] :=
      abc_filter_prefix pre suf p hsorted_s hnm_suf
    have e1 : ((ps.filter (fun q => decide (abcLe q p))).map sales_value).sum =
        ((pre ++ [p]).map sales_value).sum := by
      have hfp : List.Perm (ps.filter (fun q => decide (abcLe q p)))
          ((pre ++ p :: suf).filter (fun q => decide (abcLe q p))) :=
        hpermps.symm.filter _
      rw [← hfil]
      exact (hfp.map sales_value).sum_eq
    have e2 : ((pre ++ p :: suf).map sales_value).sum = (ps.map sales_value).sum :=
      (hpermps.map _).sum_eq
    rw [hcls, hsplit, abcAssign_lookup _ p suf pre 0 hnm_pre, zero_add, ← e1, e2]

/-- Witness for classify_abc_partition at the specification's example scenario
(sales values 800 and 200, cumulative shares 80 and 100 percent). -/
theorem classify_abc_partition_witness :
    ((classify_abc [AbcItem.mk "A" 8 100, AbcItem.mk "B" 2 100]).map Prod.fst).Perm
      (([AbcItem.mk "A" 8 100, AbcItem.mk "B" 2 100] : List AbcItem).map AbcItem.nombre_clean)
    ∧ ((classify_abc [AbcItem.mk "A" 8 100, AbcItem.mk "B" 2 100]).map Prod.fst).Nodup
    ∧ ∀ p ∈ ([AbcItem.mk "A" 8 100, AbcItem.mk "B" 2 100] : List AbcItem),
        List.lookup p.nombre_clean (classify_abc [AbcItem.mk "A" 8 100, AbcItem.mk "B" 2 100]) =
          some (abcRule (safe_divide
            ((([AbcItem.mk "A" 8 100, AbcItem.mk "B" 2 100].filter
              (fun q => decide (abcLe q p))).map sales_value).sum)
            ((([AbcItem.mk "A" 8 100, AbcItem.mk "B" 2 100] : List AbcItem).map
              sales_value).sum) 0)) :=
  classify_abc_partition [AbcItem.mk "A" 8 100, AbcItem.mk "B" 2 100] (by decide) (by decide)

theorem perm_sorted_nodup_names_eq :
    ∀ (l1 l2 : List Entry), List.Perm l1 l2 →
      (l1.map Entry.nombre_clean).Nodup →
      List.Pairwise entryNameLe l1 → List.Pairwise entryNameLe l2 → l1 = l2 := by
  intro l1
  induction l1 with
  | nil =>
    intro l2 hp _ _ _
    exact hp.nil_eq
  | cons a t1 ih =>
    intro l2 hp hnd h1 h2
    cases l2 with
    | nil => exact absurd hp.symm.nil_eq (by simp)
    | cons b t2 =>
      rcases eq_or_ne a b with hab | hab
      · subst hab
        have hts : List.Perm t1 t2 := hp.cons_inv
        have := ih t2 hts (List.nodup_cons.mp hnd).2
          (List.pairwise_cons.mp h1).2 (List.pairwise_cons.mp h2).2
        rw [this]
      · have hbt1 : b ∈ t1 := by
          have : b ∈ a :: t1 := hp.mem_iff.mpr (List.mem_cons_self b t2)
          rcases List.mem_cons.mp this with h | h
          · exact absurd h.symm hab
          · exact h
        have hat2 : a ∈ t2 := by
          have : a ∈ b :: t2 := hp.mem_iff.mp (List.mem_cons_self a t1)
          rcases List.mem_cons.mp this with h | h
          · exact absurd h hab
          · exact h
        have hab1 : entryNameLe a b := (List.pairwise_cons.mp h1).1 b hbt1
        have hba1 : entryNameLe b a := (List.pairwise_cons.mp h2).1 a hat2
        have hnameseq : a.nombre_clean = b.nombre_clean := strLe_antisymm hab1 hba1
        have : a.nombre_clean ∉ t1.map Entry.nombre_clean := (List.nodup_cons.mp hnd).1
        exact absurd (hnameseq ▸ List.mem_map_of_mem Entry.nombre_clean hbt1) this

/-- C1: determinism of the full KPI batch. The database content (per-product
movement rows, cabys rows and cost samples) enters as unordered collections;
any two presentations of the same content (any permutation of the product
entries, with every per-product result set a multiset) and the same parameters
produce identical output: the same rational metric values, the same ABC and
XYZ classes, the same flags and the same record ordering. The name-distinctness
hypothesis reflects the SELECT DISTINCT of the discovery query. -/
theorem calculate_kpis_fixed_deterministic (sqrtFn : ℚ → ℚ) (start_date end_date : ℕ)
    (p : Params) (entries1 entries2 : List Entry)
    (hperm : List.Perm entries1 entries2)
    (hnodup : (entries1.map Entry.nombre_clean).Nodup) :
    calculate_kpis_fixed_pure sqrtFn start_date end_date p entries1 =
      calculate_kpis_fixed_pure sqrtFn start_date end_date p entries2 := by
  have hsort : List.insertionSort entryNameLe entries1 =
      List.insertionSort entryNameLe entries2 := by
    apply perm_sorted_nodup_names_eq
    · exact (List.perm_insertionSort entryNameLe entries1).trans
        (hperm.trans (List.perm_insertionSort entryNameLe entries2).symm)
    · exact (((List.perm_insertionSort entryNameLe entries1).map
        Entry.nombre_clean).nodup_iff).mpr hnodup
    · exact List.sorted_insertionSort entryNameLe entries1
    · exact List.sorted_insertionSort entryNameLe entries2
  simp only [calculate_kpis_fixed_pure, kpiProductsOf, hsort]

/-- Witness for calculate_kpis_fixed_deterministic: two presentation orders of
the same two-product data set yield the same batch output. -/
theorem calculate_kpis_fixed_deterministic_witness :
    calculate_kpis_fixed_pure id 1 3 (Params.mk (19/20) 7 45 7)
      [Entry.mk "A" (↑[(1, "C1")]) (↑[Mov.mk 1 2 1]) (↑[(3 : ℚ)]),
       Entry.mk "B" (↑([] : List (ℕ × String))) (↑[Mov.mk 2 0 4]) (↑([] : List ℚ))] =
    calculate_kpis_fixed_pure id 1 3 (Params.mk (19/20) 7 45 7)
      [Entry.mk "B" (↑([] : List (ℕ × String))) (↑[Mov.mk 2 0 4]) (↑([] : List ℚ)),
       Entry.mk "A" (↑[(1, "C1")]) (↑[Mov.mk 1 2 1]) (↑[(3 : ℚ)])] :=
  calculate_kpis_fixed_deterministic id 1 3 (Params.mk (19/20) 7 45 7) _ _
    (List.Perm.swap _ _ _) (by decide)

theorem runLoop_eq_some (failAt : String → Bool) (f : Entry → Option ProductData) :
    ∀ (es : List Entry) (ds : List ProductData),
      runLoop failAt f es = some ds → ds = es.filterMap f := by
  intro es
  induction es with
  | nil =>
    intro ds h
    simp only [runLoop, Option.some_inj] at h
    simp [← h]
  | cons e rest ih =>
    intro ds h
    simp only [runLoop] at h
    by_cases hf : failAt e.nombre_clean
    · rw [if_pos hf] at h
      exact absurd h (by simp)
    · rw [if_neg hf] at h
      cases hfe : f e with
      | none =>
        rw [hfe] at h
        rw [List.filterMap_cons, hfe]
        exact ih ds h
      | some d =>
        rw [hfe] at h
        cases hrest : runLoop failAt f rest with
        | none =>
          rw [hrest] at h
          exact absurd h (by simp)
        | some ds' =>
          rw [hrest] at h
          simp only [Option.some_inj] at h
          rw [List.filterMap_cons, hfe, ← h, ih ds' hrest]
  
theorem runLoop_eq_none_iff (failAt : String → Bool) (f : Entry → Option ProductData) :
    ∀ (es : List Entry),
      runLoop failAt f es = none ↔ ∃ e ∈ es, failAt e.nombre_clean = true := by
  intro es
  induction es with
  | nil => simp [runLoop]
  | cons e rest ih =>
    simp only [runLoop]
    by_cases hf : failAt e.nombre_clean
    · simp only [if_pos hf]
      constructor
      · intro _
        exact ⟨e, List.mem_cons_self _ _, hf⟩
      · intro _
        trivial
    · rw [if_neg hf]
      have hstep : ∀ o : Option (List ProductData),
          (∃ e2 ∈ rest, failAt e2.nombre_clean = true) ↔
            ∃ e2 ∈ e :: rest, failAt e2.nombre_clean = true := by
        intro _
        constructor
        · rintro ⟨x, hx, hPx⟩
          exact ⟨x, List.mem_cons_of_mem _ hx, hPx⟩
        · rintro ⟨x, hx, hPx⟩
          rcases List.mem_cons.mp hx with hx | hx
          · subst hx
            exact absurd hPx hf
          · exact ⟨x, hx, hPx⟩
      cases hfe : f e with
      | none =>
        exact ih.trans (hstep none)
      | some d =>
        cases hrest : runLoop failAt f rest with
        | none =>
          simp only [hrest]
          constructor
          · intro _
            exact (hstep none).mp (ih.mp hrest)
          · intro _
            trivial
        | some ds =>
          simp only [hrest]
          constructor
          · intro h
            exact absurd h (by simp)
          · intro hex
            have := ih.mpr ((hstep (some ds)).mpr hex)
            rw [hrest] at this
            exact absurd this (by simp)

theorem foldl_add_spec (w : Window) :
    ∀ (recs : List ProductoKpis) (s : DbSession),
      ((recs.foldl (fun s k => s.add w k) s).pending =
        s.pending ++ recs.map (fun k => (w, k)))
      ∧ ((recs.foldl (fun s k => s.add w k) s).committed = s.committed) := by
  intro recs
  induction recs with
  | nil =>
    intro s
    simp
  | cons k rest ih =>
    intro s
    simp only [List.foldl_cons, List.map_cons]
    constructor
    · rw [(ih (s.add w k)).1]
      simp [DbSession.add]
    · rw [(ih (s.add w k)).2]
      rfl

/-- C9: all-or-nothing semantics of calculate_kpis_fixed. The invocation raises
(first component none) exactly when the per-product computation of some
discovered product raises, and in that case the observed store equals the
prior store: the staged window DELETE is rolled back. When no product fails,
the observed store is the prior store minus the rows of the exact
(start_date, end_date) window plus the complete new result set for it, leaving
every other window untouched. -/
theorem calculate_kpis_fixed_atomic (sqrtFn : ℚ → ℚ) (failAt : String → Bool)
    (start_date end_date : ℕ) (p : Params) (entries : List Entry) (db : KpiStore) :
    ((calculate_kpis_fixed_run sqrtFn failAt start_date end_date p entries db).1 = none ↔
      ∃ e ∈ kpiProductsOf start_date end_date entries, failAt e.nombre_clean = true)
    ∧ ((calculate_kpis_fixed_run sqrtFn failAt start_date end_date p entries db).1 = none →
      (calculate_kpis_fixed_run sqrtFn failAt start_date end_date p entries db).2 = db)
    ∧ ((calculate_kpis_fixed_run sqrtFn failAt start_date end_date p entries db).1 = some () →
      (calculate_kpis_fixed_run sqrtFn failAt start_date end_date p entries db).2 =
        db.filter (fun r => decide (¬ r.1 = (start_date, end_date))) ++
          (calculate_kpis_fixed_pure sqrtFn start_date end_date p entries).map
            (fun k => ((start_date, end_date), k))) := by
  cases hL : runLoop failAt (productData sqrtFn p start_date end_date)
      (kpiProductsOf start_date end_date entries) with
  | none =>
    have hrun : calculate_kpis_fixed_run sqrtFn failAt start_date end_date p entries db =
        (none, db) := by
      simp only [calculate_kpis_fixed_run, hL]
      rfl
    refine ⟨?_, ?_, ?_⟩
    · rw [hrun]
      constructor
      · intro _
        exact (runLoop_eq_none_iff _ _ _).mp hL
      · intro _
        rfl
    · intro _
      rw [hrun]
    · rw [hrun]
      intro h
      exact absurd h (by simp)
  | some ds =>
    have hds : ds = (kpiProductsOf start_date end_date entries).filterMap
        (productData sqrtFn p start_date end_date) := runLoop_eq_some _ _ _ ds hL
    have hrun : calculate_kpis_fixed_run sqrtFn failAt start_date end_date p entries db =
        (some (),
          ((attachClassifications start_date end_date ds).foldl
            (fun s k => s.add (start_date, end_date) k)
            ((DbSession.start db).deleteWindow (start_date, end_date))).pending) := by
      simp only [calculate_kpis_fixed_run, hL]
      rfl
    refine ⟨?_, ?_, ?_⟩
    · rw [hrun]
      constructor
      · intro h
        exact absurd h (by simp)
      · intro hex
        have hnone := (runLoop_eq_none_iff failAt
          (productData sqrtFn p start_date end_date)
          (kpiProductsOf start_date end_date entries)).mpr hex
        rw [hL] at hnone
        exact absurd hnone (by simp)
    · rw [hrun]
      intro h
      exact absurd h (by simp)
    · intro _
      rw [hrun]
      have hfold := (foldl_add_spec (start_date, end_date)
        (attachClassifications start_date end_date ds)
        ((DbSession.start db).deleteWindow (start_date, end_date))).1
      rw [hfold]
      have hpend : ((DbSession.start db).deleteWindow (start_date, end_date)).pending =
          db.filter (fun r => decide (¬ r.1 = (start_date, end_date))) := rfl
      rw [hpend, hds]
      rfl

/-- Witness for calculate_kpis_fixed_atomic, exercising both the failing branch
(a failure oracle that fails on every product leaves the store unchanged) and
the committing branch (no products: the window is replaced by an empty result
set). -/
theorem calculate_kpis_fixed_atomic_witness :
    (calculate_kpis_fixed_run id (fun _ => true) 1 1 (Params.mk 1 7 45 7)
      [Entry.mk "A" (↑([] : List (ℕ × String))) (↑[Mov.mk 1 1 0]) (↑([] : List ℚ))] []).2 = []
    ∧ (calculate_kpis_fixed_run id (fun _ => false) 2 2 (Params.mk 1 7 45 7) [] []).2 =
        ([] : KpiStore).filter (fun r => decide (¬ r.1 = (2, 2))) ++
          (calculate_kpis_fixed_pure id 2 2 (Params.mk 1 7 45 7) []).map
            (fun k => ((2, 2), k)) :=
  ⟨(calculate_kpis_fixed_atomic id (fun _ => true) 1 1 (Params.mk 1 7 45 7)
      [Entry.mk "A" (↑([] : List (ℕ × String))) (↑[Mov.mk 1 1 0]) (↑([] : List ℚ))] []).2.1 rfl,
   (calculate_kpis_fixed_atomic id (fun _ => false) 2 2 (Params.mk 1 7 45 7) [] []).2.2 rfl⟩

/-- C8 (code-bug evidence): calculate_kpis_fixed performs no parameter
validation. With end_date before start_date and a non-positive lead_time_days,
the invocation is not rejected: it runs to a successful commit (first component
some) instead of raising, even though the repository's own (never-called)
validate_date_range deems the range invalid. The store is left with the
different-window row intact and an empty result set for the inverted window. -/
theorem calculate_kpis_fixed_no_validation :
    validate_date_range 5 3 = false
    ∧ (calculate_kpis_fixed_run id (fun _ => false) 5 3 (Params.mk (19/20) 0 45 7)
        [Entry.mk "P" (↑([] : List (ℕ × String))) (↑[Mov.mk 4 2 1]) (↑([] : List ℚ))]
        [((1, 3), ProductoKpis.mk "c" "P" 2 1 1 1 3 1 999 7 0 7 0 0
          ABCClass.A XYZClass.X 1 3)]).1 = some ()
    ∧ (calculate_kpis_fixed_run id (fun _ => false) 5 3 (Params.mk (19/20) 0 45 7)
        [Entry.mk "P" (↑([] : List (ℕ × String))) (↑[Mov.mk 4 2 1]) (↑([] : List ℚ))]
        [((1, 3), ProductoKpis.mk "c" "P" 2 1 1 1 3 1 999 7 0 7 0 0
          ABCClass.A XYZClass.X 1 3)]).2 =
      [((1, 3), ProductoKpis.mk "c" "P" 2 1 1 1 3 1 999 7 0 7 0 0
        ABCClass.A XYZClass.X 1 3)] :=
  ⟨rfl, rfl, rfl⟩
